import Mathlib

/-!
Verification of the contact-directory core of `goit-pycore-hw-07`.

The development shallowly embeds the Python sources:
  * `src/utils/date_utils.py` (`is_leap_year`, `format_date_str`, `parse_date`),
  * `src/validators/field_validators.py` and `src/validators/contact_validators.py`,
  * `src/services/address_book/phone.py` (`Phone.__init__`),
  * `src/address_book/record.py` (`Record` and its phone/birthday operations),
  * `src/services/address_book/address_book.py` (`AddressBook`: `add_record`,
    `find`, `find_match`, `delete`, `__str__`, `get_upcoming_birthdays`).

Python's `datetime.date` is modelled by the `Date` structure below together with
proleptic-Gregorian ordinal arithmetic (`toOrdinal`, `weekday`, `addDays`),
matching CPython's `datetime` semantics: dates compare lexicographically by
(year, month, day), `timedelta(days=n)` adds `n` calendar days, and
`weekday()` returns Monday=0 … Sunday=6.  Python's stable `list.sort(key=...)`
is modelled by the insertion sort `pySort` (any stable ascending sort computes
the same list, so this is a faithful model of CPython's Timsort result).
-/

/-- A calendar date, modelling `datetime.date` (year, month, day). -/
structure Date where
  year : Nat
  month : Nat
  day : Nat
deriving DecidableEq, Repr

/-- `is_leap_year` from `src/utils/date_utils.py`:
`year % 4 == 0 and (year % 100 != 0 or year % 400 == 0)`. -/
def is_leap_year (year : Nat) : Bool :=
  year % 4 == 0 && (year % 100 != 0 || year % 400 == 0)

/-- Number of days in a month of a given year (CPython `datetime` table). -/
def daysInMonth (y m : Nat) : Nat :=
  match m with
  | 1 => 31
  | 2 => if is_leap_year y then 29 else 28
  | 3 => 31
  | 4 => 30
  | 5 => 31
  | 6 => 30
  | 7 => 31
  | 8 => 31
  | 9 => 30
  | 10 => 31
  | 11 => 30
  | 12 => 31
  | _ => 0

/-- Days in year `y` strictly before month `m` (month 1 has none). -/
def daysBeforeMonth (y : Nat) : Nat → Nat
  | 0 => 0
  | m + 1 => daysBeforeMonth y m + daysInMonth y m

/-- Days strictly before January 1 of year `y` in the proleptic Gregorian
calendar (CPython `datetime._days_before_year`). -/
def daysBeforeYear (y : Nat) : Nat :=
  365 * (y - 1) + (y - 1) / 4 - (y - 1) / 100 + (y - 1) / 400

/-- Proleptic-Gregorian ordinal of a date (CPython `date.toordinal`;
0001-01-01 has ordinal 1). -/
def toOrdinal (d : Date) : Nat :=
  daysBeforeYear d.year + daysBeforeMonth d.year d.month + d.day

/-- `date.weekday()`: Monday is 0, Sunday is 6. 0001-01-01 (ordinal 1) is a
Monday, hence the offset. -/
def weekday (d : Date) : Nat :=
  (toOrdinal d + 6) % 7

/-- Validity of a date as enforced by the `datetime.date` constructor
(`MAXYEAR` is not modelled; it is irrelevant to the claims). -/
def validDate (d : Date) : Bool :=
  decide (1 ≤ d.year) && decide (1 ≤ d.month) && decide (d.month ≤ 12) &&
    decide (1 ≤ d.day) && decide (d.day ≤ daysInMonth d.year d.month)

/-- The calendar successor of a date. -/
def nextDay (d : Date) : Date :=
  if d.day < daysInMonth d.year d.month then ⟨d.year, d.month, d.day + 1⟩
  else if d.month < 12 then ⟨d.year, d.month + 1, 1⟩
  else ⟨d.year + 1, 1, 1⟩

/-- `d + timedelta(days=n)`, modelled by iterating the calendar successor. -/
def addDays (d : Date) : Nat → Date
  | 0 => d
  | n + 1 => nextDay (addDays d n)

/-- Python `date` comparison: lexicographic on (year, month, day). -/
def dateLt (a b : Date) : Bool :=
  decide (a.year < b.year ∨ (a.year = b.year ∧
    (a.month < b.month ∨ (a.month = b.month ∧ a.day < b.day))))

/-- Python `date` non-strict comparison. -/
def dateLe (a b : Date) : Bool :=
  dateLt a b || a == b

theorem is_leap_year_iff (y : Nat) :
    is_leap_year y = true ↔ (y % 4 = 0 ∧ (y % 100 ≠ 0 ∨ y % 400 = 0)) := by
  simp [is_leap_year]

theorem daysBeforeYear_succ (y : Nat) (hy : 1 ≤ y) :
    daysBeforeYear (y + 1) = daysBeforeYear y + (if is_leap_year y then 366 else 365) := by
  have h4 : (y + 1 - 1) / 4 = (y - 1) / 4 + (if y % 4 = 0 then 1 else 0) := by
    split <;> omega
  have h100 : (y + 1 - 1) / 100 = (y - 1) / 100 + (if y % 100 = 0 then 1 else 0) := by
    split <;> omega
  have h400 : (y + 1 - 1) / 400 = (y - 1) / 400 + (if y % 400 = 0 then 1 else 0) := by
    split <;> omega
  by_cases hc : y % 4 = 0 ∧ (y % 100 ≠ 0 ∨ y % 400 = 0)
  · rw [if_pos ((is_leap_year_iff y).mpr hc)]
    unfold daysBeforeYear
    rw [h4, h100, h400]
    rcases hc with ⟨hc4, hc100 | hc400⟩
    · rw [if_pos hc4, if_neg hc100]
      by_cases hy400 : y % 400 = 0
      · omega
      · rw [if_neg hy400]; omega
    · have h100z : y % 100 = 0 := by omega
      rw [if_pos hc4, if_pos hc400, if_pos h100z]; omega
  · rw [if_neg (fun hh => hc ((is_leap_year_iff y).mp hh))]
    unfold daysBeforeYear
    rw [h4, h100, h400]
    rcases Decidable.not_and_iff_or_not.mp hc with hc4 | hc2
    · rw [if_neg hc4]
      by_cases hy100 : y % 100 = 0
      · have hy400 : y % 400 ≠ 0 := by omega
        rw [if_pos hy100, if_neg hy400]; omega
      · have hy400 : y % 400 ≠ 0 := by omega
        rw [if_neg hy100, if_neg hy400]; omega
    · have hy100 : y % 100 = 0 := not_not.mp (fun h => hc2 (Or.inl h))
      have hy400 : y % 400 ≠ 0 := fun h => hc2 (Or.inr h)
      have hy4 : y % 4 = 0 := by omega
      rw [if_pos hy4, if_pos hy100, if_neg hy400]; omega

theorem daysBeforeMonth_year_total (y : Nat) :
    daysBeforeMonth y 13 = if is_leap_year y then 366 else 365 := by
  cases h : is_leap_year y <;>
    simp [daysBeforeMonth, daysInMonth, h]

theorem daysInMonth_pos (y m : Nat) (h1 : 1 ≤ m) (h2 : m ≤ 12) :
    1 ≤ daysInMonth y m := by
  interval_cases m <;> (simp only [daysInMonth]; try split) <;> omega

theorem daysInMonth_le_31 (y m : Nat) : daysInMonth y m ≤ 31 := by
  unfold daysInMonth
  split <;> first | omega | (split <;> omega)

theorem validDate_iff (d : Date) :
    validDate d = true ↔
      (1 ≤ d.year ∧ 1 ≤ d.month ∧ d.month ≤ 12 ∧ 1 ≤ d.day ∧
        d.day ≤ daysInMonth d.year d.month) := by
  simp [validDate, and_assoc]

theorem nextDay_valid (d : Date) (h : validDate d = true) :
    validDate (nextDay d) = true := by
  rcases (validDate_iff d).mp h with ⟨hy, hm1, hm2, hd1, hd2⟩
  have hpos : d.month + 1 ≤ 12 → 1 ≤ daysInMonth d.year (d.month + 1) :=
    fun hc => daysInMonth_pos _ _ (by omega) hc
  have hjan : daysInMonth (d.year + 1) 1 = 31 := rfl
  unfold nextDay
  by_cases hlt : d.day < daysInMonth d.year d.month
  · rw [if_pos hlt, validDate_iff]
    dsimp only
    omega
  · rw [if_neg hlt]
    by_cases hm : d.month < 12
    · rw [if_pos hm, validDate_iff]
      dsimp only
      omega
    · rw [if_neg hm, validDate_iff]
      dsimp only
      omega

theorem toOrdinal_nextDay (d : Date) (h : validDate d = true) :
    toOrdinal (nextDay d) = toOrdinal d + 1 := by
  rcases (validDate_iff d).mp h with ⟨hy, hm1, hm2, hd1, hd2⟩
  unfold nextDay
  by_cases hlt : d.day < daysInMonth d.year d.month
  · rw [if_pos hlt]
    simp only [toOrdinal]
    omega
  · have hde : d.day = daysInMonth d.year d.month := by omega
    rw [if_neg hlt]
    by_cases hm : d.month < 12
    · rw [if_pos hm]
      have hstep : daysBeforeMonth d.year (d.month + 1) =
          daysBeforeMonth d.year d.month + daysInMonth d.year d.month := rfl
      simp only [toOrdinal]
      omega
    · have hm12 : d.month = 12 := by omega
      rw [if_neg hm]
      have hdy : daysBeforeYear (d.year + 1) =
          daysBeforeYear d.year + (if is_leap_year d.year then 366 else 365) :=
        daysBeforeYear_succ d.year hy
      have htot : daysBeforeMonth d.year 13 = if is_leap_year d.year then 366 else 365 :=
        daysBeforeMonth_year_total d.year
      have hsplit : daysBeforeMonth d.year 13 =
          daysBeforeMonth d.year 12 + daysInMonth d.year 12 := rfl
      have hb1 : daysBeforeMonth (d.year + 1) 1 = 0 := rfl
      simp only [toOrdinal, hm12] at *
      omega

theorem addDays_valid_ordinal (d : Date) (h : validDate d = true) (n : Nat) :
    validDate (addDays d n) = true ∧ toOrdinal (addDays d n) = toOrdinal d + n := by
  induction n with
  | zero => exact ⟨h, rfl⟩
  | succ k ih =>
    refine ⟨nextDay_valid _ ih.1, ?_⟩
    show toOrdinal (nextDay (addDays d k)) = _
    rw [toOrdinal_nextDay _ ih.1, ih.2]
    omega

theorem weekday_addDays (d : Date) (h : validDate d = true) (n : Nat) :
    weekday (addDays d n) = (weekday d + n) % 7 := by
  have := (addDays_valid_ordinal d h n).2
  unfold weekday
  rw [this]
  omega

theorem dateLt_irrefl (a : Date) : dateLt a a = false := by
  simp [dateLt]

theorem dateLe_eq_not_dateLt (a b : Date) : dateLe a b = !dateLt b a := by
  rcases a with ⟨ay, am, ad⟩
  rcases b with ⟨by_, bm, bd⟩
  simp only [dateLe, dateLt, Date.mk.injEq, beq_iff_eq]
  by_cases h : ay < by_ ∨ ay = by_ ∧ (am < bm ∨ am = bm ∧ ad < bd) <;>
  by_cases h' : by_ < ay ∨ by_ = ay ∧ (bm < am ∨ bm = am ∧ bd < ad) <;>
    simp [h, h'] <;> omega

/-! ### Stable sorting, modelling Python `list.sort(key=...)` -/

/-- Insert `x` into `l` after every element `y` with `lt y x` (strictly
smaller key), before the first other one.  Elements inserted later thus land
after earlier equal-keyed ones: the sort below is stable. -/
def pyInsert (lt : α → α → Bool) (x : α) : List α → List α
  | [] => [x]
  | y :: t => if lt y x then y :: pyInsert lt x t else x :: y :: t

/-- Stable ascending sort; models Python's stable `list.sort` (Timsort and
any other stable ascending sort agree on every input). -/
def pySort (lt : α → α → Bool) : List α → List α
  | [] => []
  | x :: t => pyInsert lt x (pySort lt t)

theorem pyInsert_perm (lt : α → α → Bool) (x : α) (l : List α) :
    (pyInsert lt x l).Perm (x :: l) := by
  induction l with
  | nil => simp [pyInsert]
  | cons y t ih =>
    by_cases h : lt y x
    · simp only [pyInsert, if_pos h]
      exact ((ih.cons y).trans (List.Perm.swap x y t))
    · simp [pyInsert, if_neg h]

theorem pySort_perm (lt : α → α → Bool) (l : List α) :
    (pySort lt l).Perm l := by
  induction l with
  | nil => simp [pySort]
  | cons x t ih =>
    exact (pyInsert_perm lt x (pySort lt t)).trans (ih.cons x)

theorem pyInsert_pairwise (lt : α → α → Bool)
    (hasym : ∀ a b, lt a b = true → lt b a = false)
    (htrans : ∀ a b c, lt b a = false → lt c b = false → lt c a = false)
    (x : α) (l : List α) (hl : l.Pairwise (fun a b => lt b a = false)) :
    (pyInsert lt x l).Pairwise (fun a b => lt b a = false) := by
  induction l with
  | nil => simp [pyInsert]
  | cons y t ih =>
    rcases List.pairwise_cons.mp hl with ⟨hy, ht⟩
    by_cases h : lt y x
    · simp only [pyInsert, if_pos h]
      refine List.pairwise_cons.mpr ⟨?_, ih ht⟩
      intro z hz
      rcases List.mem_cons.mp ((pyInsert_perm lt x t).mem_iff.mp hz) with hzx | hzt
      · subst hzx; exact hasym _ _ h
      · exact hy z hzt
    · have hfalse : lt y x = false := by simpa using h
      simp only [pyInsert, if_neg h]
      refine List.pairwise_cons.mpr ⟨?_, hl⟩
      intro z hz
      rcases List.mem_cons.mp hz with hzy | hzt
      · subst hzy; exact hfalse
      · exact htrans x y z hfalse (hy z hzt)

theorem pySort_pairwise (lt : α → α → Bool)
    (hasym : ∀ a b, lt a b = true → lt b a = false)
    (htrans : ∀ a b c, lt b a = false → lt c b = false → lt c a = false)
    (l : List α) :
    (pySort lt l).Pairwise (fun a b => lt b a = false) := by
  induction l with
  | nil => simp [pySort]
  | cons x t ih => exact pyInsert_pairwise lt hasym htrans x (pySort lt t) ih

theorem pyInsert_filter (lt : α → α → Bool) (p : α → Bool)
    (x : α) (l : List α)
    (hties : ∀ y, p y = true → p x = true → lt y x = false) :
    (pyInsert lt x l).filter p =
      if p x then x :: l.filter p else l.filter p := by
  induction l with
  | nil =>
    cases hpx : p x <;> simp [pyInsert, List.filter_cons, hpx]
  | cons y t ih =>
    by_cases h : lt y x
    · cases hpx : p x with
      | false =>
        have ih2 : (pyInsert lt x t).filter p = t.filter p := by simpa [hpx] using ih
        cases hpy : p y <;> simp [pyInsert, h, List.filter_cons, hpy, hpx, ih2]
      | true =>
        have hpy : p y = false := by
          cases hc : p y
          · rfl
          · exact absurd (hties y hc hpx) (by simp [h])
        have ih2 : (pyInsert lt x t).filter p = x :: t.filter p := by simpa [hpx] using ih
        simp [pyInsert, h, List.filter_cons, hpy, hpx, ih2]
    · cases hpx : p x <;> cases hpy : p y <;>
        simp [pyInsert, h, List.filter_cons, hpx, hpy]

theorem pySort_filter (lt : α → α → Bool) (p : α → Bool)
    (hties : ∀ y x, p y = true → p x = true → lt y x = false)
    (l : List α) :
    (pySort lt l).filter p = l.filter p := by
  induction l with
  | nil => rfl
  | cons x t ih =>
    show (pyInsert lt x (pySort lt t)).filter p = _
    rw [pyInsert_filter lt p x (pySort lt t) (fun y hy hx => hties y x hy hx)]
    cases hpx : p x <;> simp [List.filter_cons, hpx, ih]

/-! ### Python string helpers -/

/-- Python's `str.strip()` (whitespace strip from both ends; ASCII
whitespace suffices for the strings of this development). -/
def pyStrip (s : String) : String :=
  String.mk (((s.data.dropWhile Char.isWhitespace).reverse.dropWhile
    Char.isWhitespace).reverse)

/-- Python's `str.lower()` (per-character lowering; ASCII suffices for the
strings of this development). -/
def pyLower (s : String) : String :=
  String.mk (s.data.map Char.toLower)

/-- Python's substring test `needle in hay` on character lists. -/
def subIn (needle : List Char) : List Char → Bool
  | [] => needle.isEmpty
  | c :: t => needle.isPrefixOf (c :: t) || subIn needle t

/-- Python's `needle in hay` for strings. -/
def strIn (needle hay : String) : Bool :=
  subIn needle.data hay.data

/-- Zero-pad a numeral string on the left to width `w` (strftime padding). -/
def padZero (w : Nat) (s : String) : String :=
  String.mk (List.replicate (w - s.length) '0') ++ s

/-- `format_date_str` from `src/utils/date_utils.py`:
`date_obj.strftime("%d.%m.%Y")`, i.e. "DD.MM.YYYY". -/
def format_date_str (d : Date) : String :=
  padZero 2 (toString d.day) ++ "." ++ padZero 2 (toString d.month) ++ "." ++
    padZero 4 (toString d.year)

/-- `parse_date` from `src/utils/date_utils.py`:
`datetime.strptime(date_str, "%d.%m.%Y").date()`, modelling `strptime`'s
day.month.year split (1-2 digit day and month, up to 4 digit year) and the
calendar-validity check of the `date` constructor; a `ValueError` is `none`. -/
def parse_date (date_str : String) : Option Date :=
  match date_str.splitOn "." with
  | [ds, ms, ys] =>
    if 1 ≤ ds.length ∧ ds.length ≤ 2 ∧ 1 ≤ ms.length ∧ ms.length ≤ 2 ∧
        1 ≤ ys.length ∧ ys.length ≤ 4 then
      match ds.toNat?, ms.toNat?, ys.toNat? with
      | some d, some m, some y =>
        if validDate ⟨y, m, d⟩ then some ⟨y, m, d⟩ else none
      | _, _, _ => none
    else none
  | _ => none

/-! ### Errors

Python's single `ValidationError` class carries only a message string; each
`raise` site is modelled by one constructor, and `PyErr.message` rebuilds the
exact message raised there. -/

inductive PyErr where
  | noContacts
  | contactExists (username : String)
  | contactExistsDiffCase (username existing : String)
  | contactNotFound (username : String)
  | didYouMean (username existing : String)
  | phoneEmptyField
  | phoneInvalidFormat (phone : String)
  | phoneExistsInContact (name phone : String)
  | phoneAlreadyExists (phone : String)
  | phoneNotFound (phone : String)
  | birthdayInvalidFormat (value : String)
  | birthdayFuture (dateStr : String)
  | birthdayAlreadySet (name dateStr : String)
deriving DecidableEq, Repr

deriving instance DecidableEq for Except

/-- The exact `ValidationError` message of each raise site
(`BIRTHDAY_FORMAT_MSG` is rendered as the `DATE_FORMAT_STR_REPRESENTATION`
constant "DD.MM.YYYY"). -/
def PyErr.message : PyErr → String
  | .noContacts => "You don't have any contacts yet, but you can add one anytime."
  | .contactExists u => "Contact with username '" ++ u ++ "' already exists."
  | .contactExistsDiffCase u ex =>
      "Contact with username '" ++ u ++ "' already exists, but under a different name: '" ++
        ex ++ "'."
  | .contactNotFound u => "Contact '" ++ u ++ "' not found."
  | .didYouMean u ex =>
      "Contact '" ++ u ++ "' not found, but a contact exists under '" ++ ex ++
        "'. Did you mean '" ++ ex ++ "'?"
  | .phoneEmptyField => "Phone cannot be empty or just whitespace."
  | .phoneInvalidFormat p =>
      "Invalid phone number '" ++ p ++ "'. Expected 10 digits, optionally starting with '+'."
  | .phoneExistsInContact nm p =>
      "Contact '" ++ nm ++ "' has '" ++ p ++ "' phone number already."
  | .phoneAlreadyExists p => "Phone '" ++ p ++ "' already exists."
  | .phoneNotFound p => "Phone '" ++ p ++ "' not found."
  | .birthdayInvalidFormat v =>
      "Invalid provided date format '" ++ v ++ "'. Use DD.MM.YYYY format."
  | .birthdayFuture s => "Given birthday date '" ++ s ++ "' can't be in the future."
  | .birthdayAlreadySet nm ds =>
      "Birthday for '" ++ nm ++ "' is already set to '" ++ ds ++ "'."

/-! ### Field validators (`src/validators/field_validators.py`) -/

/-- `validate_phone_number`: strip, reject empty, strip all non-digits
(`re.sub(r"\D", "", phone)`), require exactly 10 digits. -/
def validate_phone_number (phone : String) : Except PyErr Unit :=
  let phone := pyStrip phone
  if phone.isEmpty then .error .phoneEmptyField
  else
    let digits_only := phone.data.filter Char.isDigit
    if ¬ digits_only.length = 10 then .error (.phoneInvalidFormat phone)
    else .ok ()

/-- `Phone.__init__` from `src/services/address_book/phone.py`: validates and
then stores the *original* string (`super().__init__(phone_number)`); the
result is the stored `value`, which `str()` returns unchanged. -/
def phone_init (phone_number : String) : Except PyErr String :=
  match validate_phone_number phone_number with
  | .error e => .error e
  | .ok _ => .ok phone_number

/-- `validate_birthday_format`: parse with the fixed format, else
`InvalidFormat`. -/
def validate_birthday_format (value : String) : Except PyErr Date :=
  match parse_date value with
  | some d => .ok d
  | none => .error (.birthdayInvalidFormat value)

/-- `validate_birthday_in_past` (`validate_birthday_is_in_the_past`): fails if
`birthday > today`; `today` is `date.today()` at validation time, made an
explicit parameter. -/
def validate_birthday_in_past (today birthday : Date) : Except PyErr Unit :=
  if dateLt today birthday then .error (.birthdayFuture (format_date_str birthday))
  else .ok ()

/-- `Birthday.__init__` from `src/address_book/birthday.py`: format check then
past check, storing the parsed date. -/
def birthday_init (today : Date) (value : String) : Except PyErr Date :=
  match validate_birthday_format value with
  | .error e => .error e
  | .ok d =>
    match validate_birthday_in_past today d with
    | .error e => .error e
    | .ok _ => .ok d

/-! ### `Record` (`src/address_book/record.py`)

A `Phone` object is identified with its stored string `value`; "mutating the
Phone in place" becomes replacing the string at its list position.  Mutating
operations return the outcome together with the (possibly updated) record;
an untouched record models "no mutation happened". -/

structure Record where
  name : String
  phones : List String
  birthday : Option Date
deriving DecidableEq, Repr

def MSG_PHONE_ADDED : String := "Phone added."
def MSG_PHONE_UPDATED : String := "Phone updated."
def MSG_PHONE_DELETED : String := "Phone deleted."
def MSG_BIRTHDAY_ADDED : String := "Birthday added."
def MSG_BIRTHDAY_UPDATED : String := "Birthday updated."

/-- `Record._find_phone_with_index`: first (index, phone) with an exactly
equal value, else `None`. -/
def find_phone_with_index (phones : List String) (phone_number : String) :
    Option (Nat × String) :=
  match phones with
  | [] => none
  | p :: t =>
    if p = phone_number then some (0, p)
    else (find_phone_with_index t phone_number).map (fun ip => (ip.1 + 1, ip.2))

/-- `Record.find_phone`. -/
def Record.find_phone (r : Record) (phone_number : String) : Option String :=
  (find_phone_with_index r.phones phone_number).map (fun ip => ip.2)

/-- `Record.add_phone`: duplicate check, then `Phone(...)` construction
(which validates), then append. -/
def Record.add_phone (r : Record) (phone_number : String) :
    Except PyErr String × Record :=
  if (find_phone_with_index r.phones phone_number).isSome then
    (.error (.phoneExistsInContact r.name phone_number), r)
  else
    match phone_init phone_number with
    | .error e => (.error e, r)
    | .ok v => (.ok MSG_PHONE_ADDED, { r with phones := r.phones ++ [v] })

/-- `Record.remove_phone`. -/
def Record.remove_phone (r : Record) (phone_number : String) :
    Except PyErr String × Record :=
  match find_phone_with_index r.phones phone_number with
  | none => (.error (.phoneNotFound phone_number), r)
  | some ip => (.ok MSG_PHONE_DELETED, { r with phones := r.phones.eraseIdx ip.1 })

/-- `Record.edit_phone`: duplicate check on `new`, lookup of `old`, then
`phone.update_phone(new)` (validate, then assign in place). -/
def Record.edit_phone (r : Record) (prev_phone_number new_phone_number : String) :
    Except PyErr String × Record :=
  if (find_phone_with_index r.phones new_phone_number).isSome then
    (.error (.phoneAlreadyExists new_phone_number), r)
  else
    match find_phone_with_index r.phones prev_phone_number with
    | none => (.error (.phoneNotFound prev_phone_number), r)
    | some ip =>
      match validate_phone_number new_phone_number with
      | .error e => (.error e, r)
      | .ok _ => (.ok MSG_PHONE_UPDATED, { r with phones := r.phones.set ip.1 new_phone_number })

/-- `Record.add_birthday`: set if unset; equal re-set fails; else replace. -/
def Record.add_birthday (today : Date) (r : Record) (date_str : String) :
    Except PyErr String × Record :=
  match r.birthday with
  | none =>
    match birthday_init today date_str with
    | .error e => (.error e, r)
    | .ok d => (.ok MSG_BIRTHDAY_ADDED, { r with birthday := some d })
  | some old =>
    match birthday_init today date_str with
    | .error e => (.error e, r)
    | .ok d =>
      if old = d then (.error (.birthdayAlreadySet r.name date_str), r)
      else (.ok MSG_BIRTHDAY_UPDATED, { r with birthday := some d })

/-! ### Contact validators (`src/validators/contact_validators.py`) -/

/-- The `AddressBook.data` dict: insertion-ordered name-to-record entries with
unique keys (dict semantics; operations below preserve key uniqueness). -/
abbrev AddressBook := List (String × Record)

def MSG_CONTACT_ADDED : String := "Contact added."
def MSG_CONTACT_DELETED : String := "Contact deleted."
def MSG_NO_MATCHES : String := "No matches found."

/-- `validate_contact_not_in_contacts`: exact-key check first, then the first
case-insensitive collision. -/
def validate_contact_not_in_contacts (username : String) (contacts : AddressBook) :
    Except PyErr Unit :=
  if contacts.any (fun e => e.1 == username) then .error (.contactExists username)
  else
    match contacts.find? (fun e => pyLower e.1 == pyLower username) with
    | some e => .error (.contactExistsDiffCase username e.1)
    | none => .ok ()

/-- `validate_contacts_not_empty`. -/
def validate_contacts_not_empty (contacts : AddressBook) : Except PyErr Unit :=
  if contacts.isEmpty then .error .noContacts else .ok ()

/-- `validate_contact_is_in_contacts`: first case-insensitive key match; no
match fails `ContactNotFound`; a non-exact match fails with the
did-you-mean error; an exact match returns `contacts.get(username)` (the
exact-key lookup can only miss if the dict lacked the key, which the exact
match excludes; the fallback arm is unreachable). -/
def validate_contact_is_in_contacts (username : String) (contacts : AddressBook) :
    Except PyErr Record :=
  match contacts.find? (fun e => pyLower e.1 == pyLower username) with
  | none => .error (.contactNotFound username)
  | some e =>
    if e.1 = username then
      match contacts.find? (fun x => x.1 == username) with
      | some x => .ok x.2
      | none => .error (.contactNotFound username)
    else .error (.didYouMean username e.1)

/-! ### `AddressBook` (`src/services/address_book/address_book.py`) -/

/-- `AddressBook.add_record` (the `validate_argument_type(contact, Record)`
check is enforced by Lean's types): validate, then insert; inserting a key
that is absent appends at the end of the dict's insertion order. -/
def AddressBook.add_record (book : AddressBook) (contact : Record) :
    Except PyErr String × AddressBook :=
  match validate_contact_not_in_contacts contact.name book with
  | .error e => (.error e, book)
  | .ok _ => (.ok MSG_CONTACT_ADDED, book ++ [(contact.name, contact)])

/-- `AddressBook.find`. -/
def AddressBook.find (book : AddressBook) (username : String) : Except PyErr Record :=
  match validate_contacts_not_empty book with
  | .error e => .error e
  | .ok _ => validate_contact_is_in_contacts username book

/-- `AddressBook.delete`: resolve (which may fail), then `pop(username)`. -/
def AddressBook.delete (book : AddressBook) (username : String) :
    Except PyErr String × AddressBook :=
  match validate_contact_is_in_contacts username book with
  | .error e => (.error e, book)
  | .ok _ => (.ok MSG_CONTACT_DELETED, book.eraseP (fun e => e.1 == username))

/-- `AddressBook._format_records` with its default two-space offset:
left-justify names to the longest name, join phones with "; ". -/
def format_records (records : List Record) (offset : String) : List String :=
  let max_len := records.foldl (fun acc r => max acc r.name.length) 0
  records.map (fun r =>
    offset ++ r.name ++ String.mk (List.replicate (max_len - r.name.length) ' ') ++
      " : " ++ String.intercalate "; " r.phones)

/-- `AddressBook.__str__` (the full listing; called `render()` in the spec). -/
def AddressBook.render (book : AddressBook) : Except PyErr String :=
  match validate_contacts_not_empty book with
  | .error e => .error e
  | .ok _ =>
    let count := book.length
    let suffix := if count = 1 then "" else "s"
    let title := "You have " ++ toString count ++ " contact" ++ suffix
    let contact_lines := format_records (book.map (fun e => e.2)) "  "
    .ok (title ++ ":\n" ++ String.intercalate "\n" contact_lines)

/-- The match collection loop of `AddressBook.find_match`: an empty term
matches everything; otherwise a record is appended once when the lowered term
occurs in the lowered username (dict key), or else when some phone contains
the term verbatim. -/
def matches_of (book : AddressBook) (search_term : String) : List Record :=
  if search_term = "" then book.map (fun e => e.2)
  else
    (book.filter (fun e =>
      strIn (pyLower search_term) (pyLower e.1) ||
        e.2.phones.any (fun p => strIn search_term p))).map (fun e => e.2)

/-- `matches.sort(key=lambda record: record.name.value.lower())`. -/
def record_name_lt (a b : Record) : Bool :=
  decide (pyLower a.name < pyLower b.name)

/-- The sorted match list of `AddressBook.find_match`. -/
def find_match_list (book : AddressBook) (search_term : String) : List Record :=
  pySort record_name_lt (matches_of book search_term)

/-- `AddressBook.find_match` (called `search()` in the spec). -/
def AddressBook.find_match (book : AddressBook) (search_term : String) :
    Except PyErr String :=
  match validate_contacts_not_empty book with
  | .error e => .error e
  | .ok _ =>
    if (matches_of book search_term).isEmpty then .ok MSG_NO_MATCHES
    else
      let sorted := find_match_list book search_term
      let contact_lines := format_records sorted "  "
      let count := sorted.length
      let suffix := if count = 1 then "" else "es"
      let search_prompt :=
        if search_term = "" then "empty search" else "'" ++ search_term ++ "'"
      .ok ("Found " ++ toString count ++ " match" ++ suffix ++ " for " ++
        search_prompt ++ ":\n" ++ String.intercalate "\n" contact_lines)

/-! ### `AddressBook.get_upcoming_birthdays` -/

/-- The first stage of the loop body of `get_upcoming_birthdays`: project the
birthday onto `today_obj.year` (`birthday.value.replace(year=...)`); a Feb 29
birthday keeps Feb 29 in a leap projection year and becomes Mar 1 otherwise. -/
def projected_date (today_obj : Date) (b : Date) : Date :=
  if b.month = 2 ∧ b.day = 29 then
    if is_leap_year today_obj.year then ⟨today_obj.year, b.month, b.day⟩
    else ⟨today_obj.year, 3, 1⟩
  else ⟨today_obj.year, b.month, b.day⟩

/-- The per-record congratulation date (`congratulation_date` in the loop):
the projection, rolled one year forward when it is strictly before
`today_obj`.  When rolling, a projection that is *still* Feb 29 re-checks
leap-ness of `today_obj.year + 1`; any other projection just has its year
replaced (`congratulation_date.replace(year=today_obj.year + 1)`). -/
def congratulation_date (today_obj : Date) (b : Date) : Date :=
  if dateLt (projected_date today_obj b) today_obj then
    if (projected_date today_obj b).month = 2 ∧ (projected_date today_obj b).day = 29 then
      if !is_leap_year (today_obj.year + 1) then ⟨today_obj.year + 1, 3, 1⟩
      else
        ⟨today_obj.year + 1, (projected_date today_obj b).month,
          (projected_date today_obj b).day⟩
    else
      ⟨today_obj.year + 1, (projected_date today_obj b).month,
        (projected_date today_obj b).day⟩
  else projected_date today_obj b

/-- The weekend shift: Saturday (weekday 5) moves 2 days, Sunday (weekday 6)
moves 1 day, both to Monday. -/
def weekend_shift (d : Date) : Date :=
  if weekday d = 5 then addDays d 2
  else if weekday d = 6 then addDays d 1
  else d

/-- The inclusive window test
`today_obj <= congratulation_date <= today_obj + timedelta(n)`, evaluated on
the pre-shift date. -/
def in_window (today_obj cd : Date) (n : Nat) : Bool :=
  dateLe today_obj cd && dateLe cd (addDays today_obj n)

/-- The collection loop of `get_upcoming_birthdays`: records without a
birthday are skipped; in-window congratulation dates are weekend-shifted and
collected in directory insertion order. -/
def cong_list (book : AddressBook) (today_obj : Date) (n : Nat) :
    List (String × Date) :=
  book.filterMap (fun e =>
    match e.2.birthday with
    | none => none
    | some b =>
      let cd := congratulation_date today_obj b
      if in_window today_obj cd n then some (e.2.name, weekend_shift cd) else none)

/-- `user_congratulations.sort(key=lambda user: user["congratulation_date"])`. -/
def date_entry_lt (a b : String × Date) : Bool :=
  dateLt a.2 b.2

/-- The sorted congratulation list (before date formatting). -/
def upcoming_sorted (book : AddressBook) (today_obj : Date) (n : Nat) :
    List (String × Date) :=
  pySort date_entry_lt (cong_list book today_obj n)

/-- `AddressBook.get_upcoming_birthdays` with `today` already parsed to a
date (`today_obj` in the source) and window `upcoming_period_days = n`;
returns (name, formatted congratulation date) pairs. -/
def AddressBook.get_upcoming_birthdays (book : AddressBook) (today_obj : Date)
    (n : Nat) : List (String × String) :=
  if book.isEmpty then []
  else (upcoming_sorted book today_obj n).map (fun e => (e.1, format_date_str e.2))

/-! ### Supporting lemmas on dates and orders -/

theorem dateLt_asymm (a b : Date) (h : dateLt a b = true) : dateLt b a = false := by
  simp only [dateLt, decide_eq_true_eq, decide_eq_false_iff_not] at h ⊢
  omega

theorem dateLt_negtrans (a b c : Date)
    (h1 : dateLt b a = false) (h2 : dateLt c b = false) : dateLt c a = false := by
  simp only [dateLt, decide_eq_false_iff_not] at h1 h2 ⊢
  omega

theorem daysInMonth_year_irrel (y y' m : Nat) (h1 : 1 ≤ m) (h2 : m ≤ 12)
    (hm : ¬ m = 2) : daysInMonth y m = daysInMonth y' m := by
  interval_cases m <;> simp_all [daysInMonth]

theorem daysInMonth_feb_bounds (y : Nat) :
    28 ≤ daysInMonth y 2 ∧ daysInMonth y 2 ≤ 29 := by
  simp only [daysInMonth]
  split <;> omega

theorem replace_year_valid (d : Date) (y' : Nat) (hd : validDate d = true)
    (h29 : ¬ (d.month = 2 ∧ d.day = 29)) (hy : 1 ≤ y') :
    validDate ⟨y', d.month, d.day⟩ = true := by
  rcases (validDate_iff d).mp hd with ⟨_, hm1, hm2, hd1, hd2⟩
  rw [validDate_iff]
  dsimp only
  refine ⟨hy, hm1, hm2, hd1, ?_⟩
  by_cases hm : d.month = 2
  · have hb := daysInMonth_feb_bounds d.year
    have hb' := daysInMonth_feb_bounds y'
    have : ¬ d.day = 29 := fun hc => h29 ⟨hm, hc⟩
    rw [hm] at hd2 ⊢
    omega
  · rw [daysInMonth_year_irrel y' d.year d.month hm1 hm2 hm]
    exact hd2

theorem feb29_valid (y : Nat) (hy : 1 ≤ y) (hl : is_leap_year y = true) :
    validDate ⟨y, 2, 29⟩ = true := by
  rw [validDate_iff]
  dsimp only
  refine ⟨hy, by omega, by omega, by omega, ?_⟩
  simp [daysInMonth, hl]

theorem mar1_valid (y : Nat) (hy : 1 ≤ y) : validDate ⟨y, 3, 1⟩ = true := by
  rw [validDate_iff]
  dsimp only
  exact ⟨hy, by omega, by omega, by omega, by simp [daysInMonth]⟩

theorem projected_date_valid (today_obj b : Date)
    (ht : 1 ≤ today_obj.year) (hb : validDate b = true) :
    validDate (projected_date today_obj b) = true := by
  unfold projected_date
  by_cases h29 : b.month = 2 ∧ b.day = 29
  · rw [if_pos h29]
    cases hl : is_leap_year today_obj.year
    · simp only [Bool.false_eq_true, if_false]
      exact mar1_valid _ ht
    · simp only [if_true]
      rw [h29.1, h29.2]
      exact feb29_valid _ ht hl
  · rw [if_neg h29]
    exact replace_year_valid b today_obj.year hb h29 ht

theorem congratulation_date_valid (today_obj b : Date)
    (ht : 1 ≤ today_obj.year) (hb : validDate b = true) :
    validDate (congratulation_date today_obj b) = true := by
  have hpv := projected_date_valid today_obj b ht hb
  unfold congratulation_date
  by_cases hlt : dateLt (projected_date today_obj b) today_obj = true
  · rw [if_pos hlt]
    by_cases h2 : (projected_date today_obj b).month = 2 ∧ (projected_date today_obj b).day = 29
    · rw [if_pos h2]
      cases hleap : is_leap_year (today_obj.year + 1)
      · simp only [Bool.not_false, if_true]
        exact mar1_valid _ (by omega)
      · simp only [Bool.not_true, Bool.false_eq_true, if_false]
        rw [h2.1, h2.2]
        exact feb29_valid _ (by omega) hleap
    · rw [if_neg h2]
      exact replace_year_valid _ (today_obj.year + 1) hpv h2 (by omega)
  · rw [if_neg hlt]
    exact hpv

theorem weekday_lt_7 (d : Date) : weekday d < 7 := by
  unfold weekday
  omega

theorem weekend_shift_weekday (d : Date) (h : validDate d = true) :
    weekday (weekend_shift d) ≤ 4 := by
  unfold weekend_shift
  by_cases h5 : weekday d = 5
  · rw [if_pos h5, weekday_addDays d h 2, h5]
    omega
  · rw [if_neg h5]
    by_cases h6 : weekday d = 6
    · rw [if_pos h6, weekday_addDays d h 1, h6]
      omega
    · rw [if_neg h6]
      have := weekday_lt_7 d
      omega

theorem record_name_lt_asymm (a b : Record) (h : record_name_lt a b = true) :
    record_name_lt b a = false := by
  simp only [record_name_lt, decide_eq_true_eq, decide_eq_false_iff_not] at h ⊢
  exact not_lt_of_gt h

theorem record_name_lt_negtrans (a b c : Record)
    (h1 : record_name_lt b a = false) (h2 : record_name_lt c b = false) :
    record_name_lt c a = false := by
  simp only [record_name_lt, decide_eq_false_iff_not, not_lt] at h1 h2 ⊢
  exact le_trans h1 h2

/-! ## Claims -/

theorem is_leap_year_succ_of_leap (y : Nat) (h : is_leap_year y = true) :
    is_leap_year (y + 1) = false := by
  cases hc : is_leap_year (y + 1)
  · rfl
  · have h1 := (is_leap_year_iff y).mp h
    have h2 := (is_leap_year_iff (y + 1)).mp hc
    omega

set_option maxRecDepth 4000 in
/-- C1 (counterexample): for the Feb 29 birthday 29.02.2000 and
today = 30.12.2027, the projection 01.03.2027 is strictly before today and
the next year 2028 *is* a leap year, yet the rolled-forward congratulation
date is 01.03.2028, not 29.02.2028 as the claim requires — the Feb-29 → Mar-1
substitution is *not* re-applied against the new target year once the
projection has already become Mar 1. -/
theorem C1_counterexample :
    (⟨2000, 2, 29⟩ : Date).month = 2 ∧ (⟨2000, 2, 29⟩ : Date).day = 29 ∧
    dateLt (projected_date ⟨2027, 12, 30⟩ ⟨2000, 2, 29⟩) ⟨2027, 12, 30⟩ = true ∧
    is_leap_year (2027 + 1) = true ∧
    congratulation_date ⟨2027, 12, 30⟩ ⟨2000, 2, 29⟩ = ⟨2028, 3, 1⟩ ∧
    ¬ congratulation_date ⟨2027, 12, 30⟩ ⟨2000, 2, 29⟩ = ⟨2028, 2, 29⟩ ∧
    AddressBook.get_upcoming_birthdays [("Leap", ⟨"Leap", [], some ⟨2000, 2, 29⟩⟩)]
        ⟨2027, 12, 30⟩ 62 = [("Leap", "01.03.2028")] := by
  decide

/-- C1 (amended): for every record whose birthday is February 29 and whose
projection onto today's year falls strictly before today, the rolled-forward
congratulation date is always March 1 of today's year + 1.  The Feb-29 → Mar-1
substitution is re-applied (with an independent leap check of
`today.year + 1`) only when the projection is still Feb 29, which requires
today's year to be leap — and the year after a leap year is never leap; when
today's year is not leap the projection is already Mar 1 and rolling forward
keeps Mar 1 without re-checking leap-ness of the target year. -/
theorem C1_feb29_rollforward (today_obj b : Date)
    (hm : b.month = 2) (hd : b.day = 29)
    (hpast : dateLt (projected_date today_obj b) today_obj = true) :
    congratulation_date today_obj b = ⟨today_obj.year + 1, 3, 1⟩ := by
  have h29 : b.month = 2 ∧ b.day = 29 := ⟨hm, hd⟩
  unfold congratulation_date
  rw [if_pos hpast]
  unfold projected_date
  rw [if_pos h29]
  cases hl : is_leap_year today_obj.year
  · simp
  · have hnl : is_leap_year (today_obj.year + 1) = false :=
      is_leap_year_succ_of_leap _ hl
    simp [hm, hd, hnl]

/-- C1 (witness): birthday 29.02.2000 with today = 01.06.2025 projects to
01.03.2025 (2025 is not leap), which is before today; the theorem yields
01.03.2026. -/
theorem C1_witness :
    (⟨2000, 2, 29⟩ : Date).month = 2 ∧ (⟨2000, 2, 29⟩ : Date).day = 29 ∧
    dateLt (projected_date ⟨2025, 6, 1⟩ ⟨2000, 2, 29⟩) ⟨2025, 6, 1⟩ = true ∧
    congratulation_date ⟨2025, 6, 1⟩ ⟨2000, 2, 29⟩ = ⟨2025 + 1, 3, 1⟩ :=
  ⟨rfl, rfl, by decide,
    C1_feb29_rollforward ⟨2025, 6, 1⟩ ⟨2000, 2, 29⟩ rfl rfl (by decide)⟩

/-- C3 (counterexample): `delete` on an empty Directory does *not* fail with
the `DirectoryEmpty` ("no contacts") error: it fails `ContactNotFound` —
`AddressBook.delete` never runs `validate_contacts_not_empty` (the repo's own
test asserts exactly this message for a delete from an emptied book). -/
theorem C3_counterexample :
    AddressBook.delete ([] : AddressBook) "Alice" =
      (.error (.contactNotFound "Alice"), ([] : AddressBook)) ∧
    ¬ (AddressBook.delete ([] : AddressBook) "Alice").1 =
        .error PyErr.noContacts := by
  decide

/-- C3 (amended): on an empty Directory, `render()`, `find(name)` and
`search(term)` all fail with the `DirectoryEmpty` ("no contacts") error for
every input, while `delete(name)` fails with `ContactNotFound` for the
queried name (never `DirectoryEmpty`, and never any other error); no
operation touches the (empty) state. -/
theorem C3_empty_guards (username search_term : String) :
    AddressBook.render ([] : AddressBook) = .error PyErr.noContacts ∧
    AddressBook.find ([] : AddressBook) username = .error PyErr.noContacts ∧
    AddressBook.find_match ([] : AddressBook) search_term = .error PyErr.noContacts ∧
    AddressBook.delete ([] : AddressBook) username =
      (.error (.contactNotFound username), ([] : AddressBook)) :=
  ⟨rfl, rfl, rfl, rfl⟩

/-- C4 (counterexample): the phone string " 1234567890" (leading space) is
accepted by validation, but the `Phone` stores and renders the *original*
string, not its strip: the round trip reproduces `p`, which differs from
`p.strip()`. -/
theorem C4_counterexample :
    phone_init " 1234567890" = .ok " 1234567890" ∧
    pyStrip " 1234567890" = "1234567890" ∧
    ¬ (" 1234567890" : String) = "1234567890" := by
  decide

/-- C4 (amended): for every valid phone string `p`, constructing a Phone from
`p` and formatting it back reproduces `p` itself unchanged — validation
neither strips whitespace from the stored value nor normalizes digit
grouping. -/
theorem C4_roundtrip (p v : String) (h : phone_init p = .ok v) : v = p := by
  unfold phone_init at h
  cases hv : validate_phone_number p <;> rw [hv] at h
  · exact absurd h (by simp)
  · cases h
    rfl

/-- C4 (witness): the already-stripped valid phone "0987654321" round-trips
to itself. -/
theorem C4_witness :
    phone_init "0987654321" = Except.ok "0987654321" ∧
    ("0987654321" : String) = "0987654321" :=
  ⟨by decide, C4_roundtrip "0987654321" "0987654321" (by decide)⟩

/-- C5 (counterexample): `edit_phone(p, p)` on a record whose only phone is
`p` fails `DuplicatePhone` although `new` exists only at `old`'s own position
(index 0 of a one-element list), not "elsewhere": the duplicate check does
not exclude `old`'s position. -/
theorem C5_counterexample :
    Record.edit_phone ⟨"Alice", ["1234567890"], none⟩ "1234567890" "1234567890" =
      (.error (.phoneAlreadyExists "1234567890"),
        ⟨"Alice", ["1234567890"], none⟩) ∧
    find_phone_with_index ["1234567890"] "1234567890" = some (0, "1234567890") ∧
    (["1234567890"] : List String).length = 1 := by
  decide

theorem find_phone_with_index_some (phones : List String) (pn : String)
    (i : Nat) (p : String) (h : find_phone_with_index phones pn = some (i, p)) :
    i < phones.length ∧ phones[i]? = some p ∧ p = pn := by
  induction phones generalizing i with
  | nil => simp [find_phone_with_index] at h
  | cons q t ih =>
    by_cases hq : q = pn
    · rw [find_phone_with_index, if_pos hq] at h
      simp only [Option.some.injEq, Prod.mk.injEq] at h
      rcases h with ⟨hi, hp⟩
      subst hi
      subst hp
      exact ⟨by simp, by simp, hq⟩
    · rw [find_phone_with_index, if_neg hq] at h
      cases hf : find_phone_with_index t pn with
      | none => rw [hf] at h; simp at h
      | some ip =>
        rcases ip with ⟨i2, p2⟩
        rw [hf] at h
        injection h with h2
        injection h2 with hi hp
        subst hi
        subst hp
        obtain ⟨h1, h2, h3⟩ := ih i2 hf
        exact ⟨by simpa using h1, by simpa using h2, h3⟩

/-- C5 (amended): `edit_phone(old, new)` fails `DuplicatePhone` whenever
`new` already exists *anywhere* in the record — including the degenerate
`new = old` case, where it exists only at `old`'s own position; otherwise it
fails `PhoneNotFound` if `old` is absent; otherwise (for a valid `new`) it
rewrites exactly `old`'s position in place: the phone list keeps its length,
position `i` now holds `new`, and every other position is untouched. -/
theorem C5_edit_phone (r : Record) (pold pnew : String) :
    ((find_phone_with_index r.phones pnew).isSome = true →
      Record.edit_phone r pold pnew = (.error (.phoneAlreadyExists pnew), r)) ∧
    (find_phone_with_index r.phones pnew = none →
      find_phone_with_index r.phones pold = none →
      Record.edit_phone r pold pnew = (.error (.phoneNotFound pold), r)) ∧
    (∀ i p, find_phone_with_index r.phones pnew = none →
      find_phone_with_index r.phones pold = some (i, p) →
      validate_phone_number pnew = .ok () →
      Record.edit_phone r pold pnew =
        (.ok MSG_PHONE_UPDATED, { r with phones := r.phones.set i pnew }) ∧
      (r.phones.set i pnew).length = r.phones.length ∧
      (r.phones.set i pnew)[i]? = some pnew ∧
      (∀ j, ¬ j = i → (r.phones.set i pnew)[j]? = r.phones[j]?)) := by
  refine ⟨?_, ?_, ?_⟩
  · intro hdup
    simp [Record.edit_phone, hdup]
  · intro hnew hold
    simp [Record.edit_phone, hnew, hold]
  · intro i p hnew hold hval
    have hbounds := find_phone_with_index_some r.phones pold i p hold
    refine ⟨by simp [Record.edit_phone, hnew, hold, hval], by simp, ?_, ?_⟩
    · exact List.getElem?_set_self hbounds.1
    · intro j hj
      exact List.getElem?_set_ne (fun hh => hj hh.symm)

/-- C5 (witness): editing "1234567890" to the fresh "1112223333" in a
two-phone record rewrites position 0 in place. -/
theorem C5_witness :
    Record.edit_phone ⟨"Alice", ["1234567890", "0987654321"], none⟩
        "1234567890" "1112223333" =
      (.ok MSG_PHONE_UPDATED, ⟨"Alice", ["1112223333", "0987654321"], none⟩) := by
  have h := (C5_edit_phone ⟨"Alice", ["1234567890", "0987654321"], none⟩
      "1234567890" "1112223333").2.2 0 "1234567890" (by decide) (by decide) (by decide)
  simpa using h.1

/-- C7: every core mutating operation is atomic on failure — whenever
`add_record`, `delete`, `add_phone`, `remove_phone`, `edit_phone` or
`add_birthday` (the spec's `set_birthday`) returns a validation error, the
returned Directory / Record state is exactly the input state: each operation
completes all validation before its single mutation point. -/
theorem C7_atomic_on_failure :
    (∀ (book : AddressBook) (contact : Record) (e : PyErr),
      (AddressBook.add_record book contact).1 = .error e →
      (AddressBook.add_record book contact).2 = book) ∧
    (∀ (book : AddressBook) (username : String) (e : PyErr),
      (AddressBook.delete book username).1 = .error e →
      (AddressBook.delete book username).2 = book) ∧
    (∀ (r : Record) (p : String) (e : PyErr),
      (Record.add_phone r p).1 = .error e → (Record.add_phone r p).2 = r) ∧
    (∀ (r : Record) (p : String) (e : PyErr),
      (Record.remove_phone r p).1 = .error e → (Record.remove_phone r p).2 = r) ∧
    (∀ (r : Record) (pold pnew : String) (e : PyErr),
      (Record.edit_phone r pold pnew).1 = .error e →
      (Record.edit_phone r pold pnew).2 = r) ∧
    (∀ (today : Date) (r : Record) (ds : String) (e : PyErr),
      (Record.add_birthday today r ds).1 = .error e →
      (Record.add_birthday today r ds).2 = r) := by
  refine ⟨?_, ?_, ?_, ?_, ?_, ?_⟩
  · intro book contact e h
    unfold AddressBook.add_record at h ⊢
    cases hv : validate_contact_not_in_contacts contact.name book <;> simp [hv] at h ⊢
  · intro book username e h
    unfold AddressBook.delete at h ⊢
    cases hv : validate_contact_is_in_contacts username book <;> simp [hv] at h ⊢
  · intro r p e h
    unfold Record.add_phone at h ⊢
    cases hd : (find_phone_with_index r.phones p).isSome
    · cases hv : phone_init p <;> simp [hd, hv] at h ⊢
    · simp [hd]
  · intro r p e h
    unfold Record.remove_phone at h ⊢
    cases hf : find_phone_with_index r.phones p <;> simp [hf] at h ⊢
  · intro r pold pnew e h
    unfold Record.edit_phone at h ⊢
    cases hd : (find_phone_with_index r.phones pnew).isSome
    · cases hf : find_phone_with_index r.phones pold
      · simp [hd, hf]
      · cases hv : validate_phone_number pnew <;> simp [hd, hf, hv] at h ⊢
    · simp [hd]
  · intro today r ds e h
    unfold Record.add_birthday at h ⊢
    cases hb : r.birthday
    · cases hv : birthday_init today ds <;> simp [hb, hv] at h ⊢
    · cases hv : birthday_init today ds
      · simp [hb, hv]
      · rename_i old d
        by_cases heq : old = d <;> simp [hb, hv, heq] at h ⊢

/-- C7 (witness): adding the already-present phone "1234567890" to Alice's
record fails `DuplicatePhone` and the record (in particular its phone count)
is unchanged, as the spec's phone-uniqueness test demands. -/
theorem C7_witness :
    (Record.add_phone ⟨"Alice", ["1234567890"], none⟩ "1234567890").1 =
      .error (.phoneExistsInContact "Alice" "1234567890") ∧
    (Record.add_phone ⟨"Alice", ["1234567890"], none⟩ "1234567890").2 =
      ⟨"Alice", ["1234567890"], none⟩ :=
  ⟨by decide, C7_atomic_on_failure.2.2.1 ⟨"Alice", ["1234567890"], none⟩
    "1234567890" (.phoneExistsInContact "Alice" "1234567890") (by decide)⟩

/-- C2: the inclusive window test is evaluated on the pre-shift projected
date; any record whose pre-shift congratulation date passes it appears in the
result — no condition on the shifted date is involved, so a date shifting
out of the window is still included. -/
theorem C2_window_preshift (book : AddressBook) (today_obj : Date) (n : Nat)
    (u : String) (r : Record) (b : Date)
    (hmem : (u, r) ∈ book) (hb : r.birthday = some b)
    (hwin : in_window today_obj (congratulation_date today_obj b) n = true) :
    r.name ∈ (AddressBook.get_upcoming_birthdays book today_obj n).map Prod.fst := by
  have hne : book.isEmpty = false := by
    cases book with
    | nil => cases hmem
    | cons x t => rfl
  have hcl : (r.name, weekend_shift (congratulation_date today_obj b)) ∈
      cong_list book today_obj n := by
    apply List.mem_filterMap.mpr
    refine ⟨(u, r), hmem, ?_⟩
    simp [hb, hwin]
  have hus : (r.name, weekend_shift (congratulation_date today_obj b)) ∈
      upcoming_sorted book today_obj n :=
    ((pySort_perm _ _).mem_iff).mpr hcl
  unfold AddressBook.get_upcoming_birthdays
  rw [hne]
  simp only [Bool.false_eq_true, if_false, List.map_map]
  exact List.mem_map.mpr ⟨_, hus, rfl⟩

/-- C2 (witness): with today = 01.01.2025 and window 3 days, Alice's birthday
04.01 (a Saturday) is in the window [01.01, 04.01]; the shifted result
06.01.2025 lies *outside* the window, yet Alice is included. -/
theorem C2_witness :
    in_window ⟨2025, 1, 1⟩ (congratulation_date ⟨2025, 1, 1⟩ ⟨2001, 1, 4⟩) 3 = true ∧
    weekday (congratulation_date ⟨2025, 1, 1⟩ ⟨2001, 1, 4⟩) = 5 ∧
    weekend_shift (congratulation_date ⟨2025, 1, 1⟩ ⟨2001, 1, 4⟩) = ⟨2025, 1, 6⟩ ∧
    dateLe (⟨2025, 1, 6⟩ : Date) (addDays ⟨2025, 1, 1⟩ 3) = false ∧
    AddressBook.get_upcoming_birthdays
        [("Alice", ⟨"Alice", [], some ⟨2001, 1, 4⟩⟩)] ⟨2025, 1, 1⟩ 3 =
      [("Alice", "06.01.2025")] ∧
    ("Alice" : String) ∈ (AddressBook.get_upcoming_birthdays
        [("Alice", ⟨"Alice", [], some ⟨2001, 1, 4⟩⟩)] ⟨2025, 1, 1⟩ 3).map Prod.fst :=
  ⟨by decide, by decide, by decide, by decide, by decide,
    C2_window_preshift [("Alice", ⟨"Alice", [], some ⟨2001, 1, 4⟩⟩)] ⟨2025, 1, 1⟩ 3
      "Alice" ⟨"Alice", [], some ⟨2001, 1, 4⟩⟩ ⟨2001, 1, 4⟩
      (by simp) rfl (by decide)⟩

theorem ci_unique (book : AddressBook)
    (hinv : book.Pairwise (fun a b => ¬ pyLower a.1 = pyLower b.1))
    (a b : String × Record) (ha : a ∈ book) (hb : b ∈ book)
    (hl : pyLower a.1 = pyLower b.1) : a = b := by
  have hsymm : Symmetric (fun a b : String × Record => ¬ pyLower a.1 = pyLower b.1) :=
    fun x y h hh => h hh.symm
  by_cases hab : a = b
  · exact hab
  · exact absurd hl (List.Pairwise.forall hsymm hinv ha hb hab)

/-- C6: on a non-empty Directory whose keys are pairwise distinct even
case-insensitively (the invariant `add_record` establishes), `find` resolves
a queried name exactly as specified: an exactly matching stored entry is
returned; a stored name equal to the query only case-insensitively produces
`NotFoundDidYouMean` carrying that canonical stored name (never the record);
and a query matching no stored name even case-insensitively produces
`ContactNotFound`. -/
theorem C6_find_resolution (book : AddressBook) (username : String)
    (hne : ¬ book = [])
    (hinv : book.Pairwise (fun a b => ¬ pyLower a.1 = pyLower b.1)) :
    (∀ rec, (username, rec) ∈ book → AddressBook.find book username = .ok rec) ∧
    (∀ k rec, (k, rec) ∈ book → pyLower k = pyLower username → ¬ k = username →
      AddressBook.find book username = .error (.didYouMean username k)) ∧
    ((∀ e ∈ book, ¬ pyLower e.1 = pyLower username) →
      AddressBook.find book username = .error (.contactNotFound username)) := by
  have hguard : validate_contacts_not_empty book = .ok () := by
    cases book with
    | nil => exact absurd rfl hne
    | cons x t => rfl
  have hfind : ∀ z, AddressBook.find book username = z ↔
      validate_contact_is_in_contacts username book = z := by
    intro z
    unfold AddressBook.find
    rw [hguard]
  refine ⟨?_, ?_, ?_⟩
  · intro rec hmem
    rw [hfind]
    have hsome : (book.find? (fun e => pyLower e.1 == pyLower username)).isSome = true :=
      List.find?_isSome.mpr ⟨(username, rec), hmem, by simp⟩
    obtain ⟨e, hfe⟩ := Option.isSome_iff_exists.mp hsome
    have hpe : pyLower e.1 = pyLower username := by
      simpa using List.find?_some hfe
    have he : e = (username, rec) :=
      ci_unique book hinv e (username, rec) (List.mem_of_find?_eq_some hfe) hmem hpe
    have hsome2 : (book.find? (fun x => x.1 == username)).isSome = true :=
      List.find?_isSome.mpr ⟨(username, rec), hmem, by simp⟩
    obtain ⟨x, hfx⟩ := Option.isSome_iff_exists.mp hsome2
    have hx1 : x.1 = username := by simpa using List.find?_some hfx
    have hxe : x = (username, rec) :=
      ci_unique book hinv x (username, rec) (List.mem_of_find?_eq_some hfx) hmem
        (by rw [hx1])
    unfold validate_contact_is_in_contacts
    rw [hfe]
    subst he
    simp [hfx, hxe]
  · intro k rec hmem hlow hkne
    rw [hfind]
    have hsome : (book.find? (fun e => pyLower e.1 == pyLower username)).isSome = true :=
      List.find?_isSome.mpr ⟨(k, rec), hmem, by simpa using hlow⟩
    obtain ⟨e, hfe⟩ := Option.isSome_iff_exists.mp hsome
    have hpe : pyLower e.1 = pyLower username := by
      simpa using List.find?_some hfe
    have he : e = (k, rec) :=
      ci_unique book hinv e (k, rec) (List.mem_of_find?_eq_some hfe) hmem
        (by rw [hpe, hlow])
    unfold validate_contact_is_in_contacts
    rw [hfe]
    subst he
    simp [hkne]
  · intro hnone
    rw [hfind]
    have hfe : book.find? (fun e => pyLower e.1 == pyLower username) = none := by
      rw [List.find?_eq_none]
      intro x hx
      simpa using hnone x hx
    unfold validate_contact_is_in_contacts
    rw [hfe]

/-- C6 (witness): for the Directory containing exactly "Alex",
`find("Alex")` succeeds with the stored record, `find("alex")` fails
`NotFoundDidYouMean` carrying "Alex", and `find("Bob")` fails
`ContactNotFound`. -/
theorem C6_witness :
    AddressBook.find [("Alex", ⟨"Alex", ["9875554446"], none⟩)] "Alex" =
      .ok ⟨"Alex", ["9875554446"], none⟩ ∧
    AddressBook.find [("Alex", ⟨"Alex", ["9875554446"], none⟩)] "alex" =
      .error (.didYouMean "alex" "Alex") ∧
    AddressBook.find [("Alex", ⟨"Alex", ["9875554446"], none⟩)] "Bob" =
      .error (.contactNotFound "Bob") :=
  ⟨(C6_find_resolution [("Alex", ⟨"Alex", ["9875554446"], none⟩)] "Alex"
      (by simp) (by simp)).1 ⟨"Alex", ["9875554446"], none⟩ (by simp),
   (C6_find_resolution [("Alex", ⟨"Alex", ["9875554446"], none⟩)] "alex"
      (by simp) (by simp)).2.1 "Alex" ⟨"Alex", ["9875554446"], none⟩ (by simp)
      (by decide) (by decide),
   (C6_find_resolution [("Alex", ⟨"Alex", ["9875554446"], none⟩)] "Bob"
      (by simp) (by simp)).2.2 (by decide)⟩

/-- C8: for a non-empty Directory and non-empty term, each record occurring
once in the Directory occurs at most once in the search result — the match
loop appends a record once even when it matches both by name substring and by
phone substring — and the result is sorted ascending by case-insensitively
compared name. -/
theorem C8_search_union_sorted (book : AddressBook) (term : String)
    (hterm : ¬ term = "") (_hne : ¬ book = []) (r : Record)
    (hcount : (book.map Prod.snd).count r ≤ 1) :
    (find_match_list book term).count r ≤ 1 ∧
    (find_match_list book term).Pairwise
      (fun a b => pyLower a.name ≤ pyLower b.name) := by
  constructor
  · unfold find_match_list
    rw [(pySort_perm record_name_lt (matches_of book term)).count_eq]
    have hsub : (matches_of book term).Sublist (book.map Prod.snd) := by
      unfold matches_of
      rw [if_neg hterm]
      exact List.Sublist.map Prod.snd (List.filter_sublist book)
    exact le_trans (hsub.count_le r) hcount
  · unfold find_match_list
    have hp := pySort_pairwise record_name_lt record_name_lt_asymm
      record_name_lt_negtrans (matches_of book term)
    refine hp.imp ?_
    intro a b h
    have h2 : ¬ pyLower b.name < pyLower a.name := by
      simpa [record_name_lt] using h
    exact le_of_not_lt h2

/-- C8 (witness): the record "Bob9" with phone "9876543210" matches the term
"9" both by name substring and by phone substring, and the theorem gives that
it appears at most once in the sorted search result (the result is exactly
one entry). -/
theorem C8_witness :
    strIn (pyLower "9") (pyLower "Bob9") = true ∧
    (["9876543210"] : List String).any (fun p => strIn "9" p) = true ∧
    find_match_list [("Bob9", ⟨"Bob9", ["9876543210"], none⟩)] "9" =
      [⟨"Bob9", ["9876543210"], none⟩] ∧
    (find_match_list [("Bob9", ⟨"Bob9", ["9876543210"], none⟩)] "9").count
        ⟨"Bob9", ["9876543210"], none⟩ ≤ 1 :=
  ⟨by decide, by decide, by decide,
    (C8_search_union_sorted [("Bob9", ⟨"Bob9", ["9876543210"], none⟩)] "9"
      (by decide) (by simp) ⟨"Bob9", ["9876543210"], none⟩ (by decide)).1⟩

theorem get_upcoming_birthdays_eq_map (book : AddressBook) (today_obj : Date)
    (n : Nat) :
    AddressBook.get_upcoming_birthdays book today_obj n =
      (upcoming_sorted book today_obj n).map (fun e => (e.1, format_date_str e.2)) := by
  unfold AddressBook.get_upcoming_birthdays
  cases hbe : book.isEmpty
  · simp [hbe]
  · have hb : book = [] := List.isEmpty_iff.mp hbe
    subst hb
    simp [upcoming_sorted, cong_list, pySort]

/-- C9: the list produced by `get_upcoming_birthdays` (before the final
string formatting, which maps over it in order) is sorted ascending by the
shifted congratulation date, and entries with equal shifted dates keep
exactly the order they have in the unsorted collection list — which traverses
the Directory in insertion order — i.e. the sort's tie-break is stable. -/
theorem C9_sorted_stable (book : AddressBook) (today_obj : Date) (n : Nat) :
    AddressBook.get_upcoming_birthdays book today_obj n =
      (upcoming_sorted book today_obj n).map (fun e => (e.1, format_date_str e.2)) ∧
    (upcoming_sorted book today_obj n).Pairwise
      (fun a b => dateLe a.2 b.2 = true) ∧
    (∀ d : Date, (upcoming_sorted book today_obj n).filter (fun e => e.2 == d) =
      (cong_list book today_obj n).filter (fun e => e.2 == d)) := by
  refine ⟨get_upcoming_birthdays_eq_map book today_obj n, ?_, ?_⟩
  · have hp := pySort_pairwise date_entry_lt
      (fun a b h => dateLt_asymm a.2 b.2 h)
      (fun a b c h1 h2 => dateLt_negtrans a.2 b.2 c.2 h1 h2)
      (cong_list book today_obj n)
    refine hp.imp ?_
    intro a b h
    have h2 : dateLt b.2 a.2 = false := h
    rw [dateLe_eq_not_dateLt, h2]
    rfl
  · intro d
    unfold upcoming_sorted
    apply pySort_filter
    intro y x hy hx
    have hyd : y.2 = d := by simpa using hy
    have hxd : x.2 = d := by simpa using hx
    show dateLt y.2 x.2 = false
    rw [hyd, hxd]
    exact dateLt_irrefl d

/-- C10: no congratulation date returned by `get_upcoming_birthdays` falls on
a Saturday or Sunday — every date in the result list (stated over
`upcoming_sorted`, whose entries the result formats in order) is a weekday
(Monday=0 … Friday=4), given a valid `today` and valid stored birthdays (the
invariant `Birthday` validation establishes). -/
theorem C10_no_weekend (book : AddressBook) (today_obj : Date) (n : Nat)
    (htoday : validDate today_obj = true)
    (hbook : ∀ e ∈ book, ∀ b, e.2.birthday = some b → validDate b = true) :
    AddressBook.get_upcoming_birthdays book today_obj n =
      (upcoming_sorted book today_obj n).map (fun e => (e.1, format_date_str e.2)) ∧
    ∀ x ∈ upcoming_sorted book today_obj n, weekday x.2 ≤ 4 := by
  refine ⟨get_upcoming_birthdays_eq_map book today_obj n, ?_⟩
  intro x hx
  have hxc : x ∈ cong_list book today_obj n :=
    (pySort_perm _ _).mem_iff.mp hx
  obtain ⟨e, hmem, hfe⟩ := List.mem_filterMap.mp hxc
  cases hb : e.2.birthday with
  | none => rw [hb] at hfe; exact absurd hfe (by simp)
  | some b =>
    rw [hb] at hfe
    have hfe2 : (if in_window today_obj (congratulation_date today_obj b) n then
        some (e.2.name, weekend_shift (congratulation_date today_obj b))
      else none) = some x := hfe
    by_cases hw : in_window today_obj (congratulation_date today_obj b) n = true
    · rw [if_pos hw] at hfe2
      have hx2 : x.2 = weekend_shift (congratulation_date today_obj b) := by
        cases hfe2
        rfl
      rw [hx2]
      have hty : 1 ≤ today_obj.year := ((validDate_iff _).mp htoday).1
      exact weekend_shift_weekday _
        (congratulation_date_valid today_obj b hty (hbook e hmem b hb))
    · rw [if_neg hw] at hfe2
      exact absurd hfe2 (by simp)

/-- C10 (witness): for Alice's birthday 04.01.2001 (a Saturday in 2025) with
today = 01.01.2025 and a 7-day window, the returned entry is the Monday
06.01.2025, a weekday. -/
theorem C10_witness :
    ("Alice", (⟨2025, 1, 6⟩ : Date)) ∈
      upcoming_sorted [("Alice", ⟨"Alice", [], some ⟨2001, 1, 4⟩⟩)] ⟨2025, 1, 1⟩ 7 ∧
    weekday (⟨2025, 1, 6⟩ : Date) ≤ 4 :=
  ⟨by decide,
    C10_no_weekend [("Alice", ⟨"Alice", [], some ⟨2001, 1, 4⟩⟩)] ⟨2025, 1, 1⟩ 7
      (by decide)
      (by
        intro e he b hb
        rw [List.mem_singleton] at he
        subst he
        cases hb
        decide)
      |>.2 ("Alice", ⟨2025, 1, 6⟩) (by decide)⟩
